import Mathlib

/-!
Shallow embedding of the obo S3 command-line client (src/obo/obo.py).

The embedding covers the response-serialization layer (the per-variant
JSON encoder functions and the dispatching encoder), the query-string
construction helper, the lifecycle-rule removal logic, the bucket
versioning subcommand, and the error-handling paths around the external
storage client.

Python objects returned by the external boto library are modelled as
values of an inductive type PyVal: primitives, lists, dicts, and library
objects carrying a runtime variant tag together with a finite map from
attribute names to attribute values.  Attribute access (getattr) becomes
a lookup returning Option; code paths that raise exceptions are modelled
with Except.
-/

/-- Runtime variant tags of the boto response objects dispatched on by
BotoJSONEncoder.default in the source.  The tag unknown stands for any
object whose class is none of the recognized ones. -/
inductive Variant where
  | key
  | deleteMarker
  | user
  | pfx
  | bucket
  | lcRule
  | lcExpiration
  | lcTransition
  | wsRedirect
  | wsCondition
  | wsRedirectLocation
  | wsRoutingRule
  | wsConfiguration
  | unknown

deriving instance DecidableEq for Variant

/-- Python values as they occur in the serialization layer: None,
strings, integers, booleans, lists, dicts, and boto objects with a
variant tag and an attribute map. -/
inductive PyVal where
  | vNone
  | vStr (s : String)
  | vInt (n : Int)
  | vBool (b : Bool)
  | vList (xs : List PyVal)
  | vDict (entries : List (String × PyVal))
  | vObj (tag : Variant) (attrs : List (String × PyVal))

/-- A Python dict with string keys, in insertion order. -/
abbrev PyDict := List (String × PyVal)

/-- Lookup of a key in a dict or of an attribute in an attribute map
(first matching entry). -/
def dget {α : Type} : List (String × α) → String → Option α
  | [], _ => none
  | (k, v) :: rest, a => if k = a then some v else dget rest a

/-- Dict assignment d[a] = v: overwrite in place when the key exists,
append otherwise. -/
def dset {α : Type} (d : List (String × α)) (a : String) (v : α) : List (String × α) :=
  if (dget d a).isSome then d.map (fun p => if p.1 = a then (a, v) else p)
  else d ++ [(a, v)]

/-- Python truthiness of a value, as tested by the source condition
if attrv: None, zero, False, the empty string and empty collections are
falsy; library objects are truthy. -/
def pyTruthy : PyVal → Bool
  | PyVal.vNone => false
  | PyVal.vStr s => decide (0 < s.length)
  | PyVal.vInt n => decide (n ≠ 0)
  | PyVal.vBool b => b
  | PyVal.vList xs => decide (0 < xs.length)
  | PyVal.vDict es => decide (0 < es.length)
  | PyVal.vObj _ _ => true

/-- Python str of a value, as used by the source in len(str(attrv)).
Only the length of the result is ever inspected by the program, so
lists, dicts and objects are rendered as fixed nonempty placeholders
standing for their always-nonempty Python renderings. -/
def pyStr : PyVal → String
  | PyVal.vNone => "None"
  | PyVal.vStr s => s
  | PyVal.vInt n => toString n
  | PyVal.vBool b => if b then "True" else "False"
  | PyVal.vList _ => "[...]"
  | PyVal.vDict _ => "\x7b...\x7d"
  | PyVal.vObj _ _ => "<object>"

/-- The inclusion test of append_attr_value in the source:
attrv and len(str(attrv)) > 0. -/
def pyKeep (v : PyVal) : Bool :=
  pyTruthy v && decide (0 < (pyStr v).length)

/-- Inclusion test lifted to an optional attribute value: an absent
attribute is never included. -/
def keepAttr : Option PyVal → Bool
  | none => false
  | some v => pyKeep v

/-- Source append_attr_value: store the value under the key only when
it is truthy and stringifies to a nonempty string. -/
def append_attr_value (d : PyDict) (attr : String) (attrv : PyVal) : PyDict :=
  if pyKeep attrv then dset d attr attrv else d

/-- Source append_attr: getattr the attribute, swallowing any exception
(absent attribute means no change), then append_attr_value. -/
def append_attr (d : PyDict) (k : PyDict) (attr : String) : PyDict :=
  match dget k attr with
  | none => d
  | some v => append_attr_value d attr v

/-- Source get_attrs: probe each listed attribute in order, building the
output dict. -/
def get_attrs (k : PyDict) (attrs : List String) : PyDict :=
  attrs.foldl (fun d a => append_attr d k a) []

/-- Source append_query_arg: skip falsy values (None or the empty
string); start the string or extend it with an ampersand. -/
def append_query_arg (s : Option String) (n : String) (v : Option String) : Option String :=
  if v = none ∨ v = some "" then s
  else
    let nv := n ++ "=" ++ v.getD ""
    if s = none ∨ s = some "" then some nv
    else some (s.getD "" ++ "&" ++ nv)

/-- Python slicing x[1:-1] as used on the etag value: defined on strings
and lists (clipping indices as CPython does), a TypeError on any other
value. -/
def pySliceDrop1Last : PyVal → Except String PyVal
  | PyVal.vStr s => Except.ok (PyVal.vStr (String.mk ((s.toList.drop 1).take (s.length - 2))))
  | PyVal.vList xs => Except.ok (PyVal.vList ((xs.drop 1).take (xs.length - 2)))
  | _ => Except.error "TypeError: unsubscriptable object"

/-- Whether Python slicing is defined on a value: strings and lists
support x[1:-1], every other value raises TypeError. -/
def sliceable : PyVal → Bool
  | PyVal.vStr _ => true
  | PyVal.vList _ => true
  | _ => false

/-- The attribute list of KeyJSONEncoder.default in the source. -/
def keyAttrs : List String :=
  ["name", "size", "last_modified", "metadata", "cache_control",
   "content_type", "content_disposition", "content_language",
   "owner", "storage_class", "md5", "version_id", "encrypted",
   "delete_marker", "expiry_date", "VersionedEpoch"]

/-- Source KeyJSONEncoder.default: get_attrs over keyAttrs, then the
unconditional d[etag] = k.etag[1:-1] (raising when etag is absent or
unsliceable), then, in versioned mode, the unconditional read of
is_latest. -/
def keyDefault (versioned : Bool) (k : PyDict) : Except String PyDict :=
  let d := get_attrs k keyAttrs
  match dget k "etag" with
  | none => Except.error "AttributeError: etag"
  | some ev =>
    match pySliceDrop1Last ev with
    | Except.error m => Except.error m
    | Except.ok sv =>
      let d2 := dset d "etag" sv
      if versioned then
        match dget k "is_latest" with
        | none => Except.error "AttributeError: is_latest"
        | some lv => Except.ok (dset d2 "is_latest" lv)
      else Except.ok d2

/-- Source DeleteMarkerJSONEncoder.default: four probed attributes, the
constant delete_marker = True, and the unconditional read of is_latest. -/
def deleteMarkerDefault (k : PyDict) : Except String PyDict :=
  let d := get_attrs k ["name", "version_id", "last_modified", "owner"]
  let d2 := dset d "delete_marker" (PyVal.vBool true)
  match dget k "is_latest" with
  | none => Except.error "AttributeError: is_latest"
  | some lv => Except.ok (dset d2 "is_latest" lv)

/-- The per-variant attribute lists of the encoder classes in the
source (empty for the two variants that do not use get_attrs). -/
def variantAttrs : Variant → List String
  | Variant.key => keyAttrs
  | Variant.deleteMarker => ["name", "version_id", "last_modified", "owner"]
  | Variant.user => ["id", "display_name"]
  | Variant.pfx => []
  | Variant.bucket => ["name", "creation_date"]
  | Variant.lcRule => ["id", "prefix", "status", "expiration", "transition"]
  | Variant.lcExpiration => ["days", "date"]
  | Variant.lcTransition => ["days", "date", "storage_class"]
  | Variant.wsRedirect => ["hostname", "protocol", "replace_key", "replace_key_prefix", "http_redirect_code"]
  | Variant.wsCondition => ["key_prefix", "http_error_code"]
  | Variant.wsRedirectLocation => ["hostname", "protocol"]
  | Variant.wsRoutingRule => ["condition", "redirect"]
  | Variant.wsConfiguration => ["suffix", "error_key", "redirect_all_requests_to", "routing_rules"]
  | Variant.unknown => []

/-- Source BotoJSONEncoder.default (and its versioned subclass, selected
by the boolean): dispatch on the runtime variant tag.  The common-prefix
marker is rendered as the literal singleton dict, the unknown variant
falls through to the base json.JSONEncoder.default, which raises
TypeError. -/
def objDefault (versioned : Bool) (tag : Variant) (k : PyDict) : Except String PyDict :=
  match tag with
  | Variant.key => keyDefault versioned k
  | Variant.deleteMarker => deleteMarkerDefault k
  | Variant.user => Except.ok (get_attrs k (variantAttrs Variant.user))
  | Variant.pfx =>
    match dget k "name" with
    | none => Except.error "AttributeError: name"
    | some v => Except.ok [("prefix", v)]
  | Variant.bucket => Except.ok (get_attrs k (variantAttrs Variant.bucket))
  | Variant.lcRule => Except.ok (get_attrs k (variantAttrs Variant.lcRule))
  | Variant.lcExpiration => Except.ok (get_attrs k (variantAttrs Variant.lcExpiration))
  | Variant.lcTransition => Except.ok (get_attrs k (variantAttrs Variant.lcTransition))
  | Variant.wsRedirect => Except.ok (get_attrs k (variantAttrs Variant.wsRedirect))
  | Variant.wsCondition => Except.ok (get_attrs k (variantAttrs Variant.wsCondition))
  | Variant.wsRedirectLocation => Except.ok (get_attrs k (variantAttrs Variant.wsRedirectLocation))
  | Variant.wsRoutingRule => Except.ok (get_attrs k (variantAttrs Variant.wsRoutingRule))
  | Variant.wsConfiguration => Except.ok (get_attrs k (variantAttrs Variant.wsConfiguration))
  | Variant.unknown => Except.error "TypeError: not JSON serializable"

/-- The keys a variant encoder writes beyond its probed attribute list:
etag (and is_latest in versioned mode) for keys, delete_marker and
is_latest for delete markers, prefix for common-prefix markers. -/
def extraKeys (tag : Variant) (versioned : Bool) : List String :=
  match tag with
  | Variant.key => if versioned then ["etag", "is_latest"] else ["etag"]
  | Variant.deleteMarker => ["delete_marker", "is_latest"]
  | Variant.pfx => ["prefix"]
  | _ => []

/-- Serialization of a top-level listing (the list handed to dump_json
by list_objects and list_buckets), at the granularity of one output
dict per listed object, stopping at the first failing entry as
json.dumps does. -/
def serializeListing (versioned : Bool) : List (Variant × PyDict) → Except String (List PyDict)
  | [] => Except.ok []
  | (t, k) :: rest =>
    match objDefault versioned t k with
    | Except.error m => Except.error m
    | Except.ok d =>
      match serializeListing versioned rest with
      | Except.error m => Except.error m
      | Except.ok ds => Except.ok (d :: ds)

/-- JSON documents produced by json.dumps. -/
inductive JVal where
  | null
  | str (s : String)
  | int (n : Int)
  | bool (b : Bool)
  | arr (xs : List JVal)
  | obj (fields : List (String × JVal))

mutual

/-- Full recursive encoding of a Python value by json.dumps with the
BotoJSONEncoder (versioned selects the list-bucket-versioned subclass):
primitives are encoded natively, lists and dicts recursively, library
objects through the default dispatcher whose resulting dict is encoded
recursively.  Fuel bounds the recursion depth as the Python recursion
limit does. -/
def encodePy (versioned : Bool) : Nat → PyVal → Except String JVal
  | 0, _ => Except.error "RuntimeError: maximum recursion depth exceeded"
  | _ + 1, PyVal.vNone => Except.ok JVal.null
  | _ + 1, PyVal.vStr s => Except.ok (JVal.str s)
  | _ + 1, PyVal.vInt n => Except.ok (JVal.int n)
  | _ + 1, PyVal.vBool b => Except.ok (JVal.bool b)
  | fuel + 1, PyVal.vList xs =>
    match encodePyList versioned fuel xs with
    | Except.error m => Except.error m
    | Except.ok js => Except.ok (JVal.arr js)
  | fuel + 1, PyVal.vDict es =>
    match encodePyFields versioned fuel es with
    | Except.error m => Except.error m
    | Except.ok fs => Except.ok (JVal.obj fs)
  | fuel + 1, PyVal.vObj tag k =>
    match objDefault versioned tag k with
    | Except.error m => Except.error m
    | Except.ok d =>
      match encodePyFields versioned fuel d with
      | Except.error m => Except.error m
      | Except.ok fs => Except.ok (JVal.obj fs)

/-- Encoding of the elements of a Python list, first failure aborting. -/
def encodePyList (versioned : Bool) : Nat → List PyVal → Except String (List JVal)
  | 0, _ => Except.error "RuntimeError: maximum recursion depth exceeded"
  | _ + 1, [] => Except.ok []
  | fuel + 1, x :: xs =>
    match encodePy versioned fuel x with
    | Except.error m => Except.error m
    | Except.ok j =>
      match encodePyList versioned fuel xs with
      | Except.error m => Except.error m
      | Except.ok js => Except.ok (j :: js)

/-- Encoding of the entries of a Python dict, first failure aborting. -/
def encodePyFields (versioned : Bool) : Nat → List (String × PyVal) → Except String (List (String × JVal))
  | 0, _ => Except.error "RuntimeError: maximum recursion depth exceeded"
  | _ + 1, [] => Except.ok []
  | fuel + 1, (a, x) :: xs =>
    match encodePy versioned fuel x with
    | Except.error m => Except.error m
    | Except.ok j =>
      match encodePyFields versioned fuel xs with
      | Except.error m => Except.error m
      | Except.ok js => Except.ok ((a, j) :: js)

end

/-- A lifecycle rule as handled by remove_lifecycle in the source: the
only attribute that code reads is its id. -/
structure LcRule where
  id : Option String

deriving instance DecidableEq for LcRule

/-- The bucket-level effect of OboBucket.remove_lifecycle. -/
inductive LcAction where
  | deleteConfig
  | configure (rules : List LcRule)
  | nop

deriving instance DecidableEq for LcAction

/-- Source OboBucket.remove_lifecycle: with remove_all, delete the whole
configuration; otherwise fetch the current configuration (a failing
fetch means return without any action), keep the rules whose id differs,
and either delete the whole configuration (when none remain) or write
the remaining rules back. -/
def remove_lifecycle (rule_id : Option String) (remove_all : Bool)
    (fetch : Except String (List LcRule)) : LcAction :=
  if remove_all then LcAction.deleteConfig
  else
    match fetch with
    | Except.error _ => LcAction.nop
    | Except.ok rules =>
      let new_lc := rules.filter (fun r => r.id != rule_id)
      if new_lc.length = 0 then LcAction.deleteConfig
      else LcAction.configure new_lc

/-- Outcome of the bucket versioning subcommand after argument parsing:
a usage error (usage text printed, nonzero exit), a failed assert
(traceback, nonzero exit), or the versioning call with the chosen
status. -/
inductive VersioningOutcome where
  | usageError
  | assertionFailure
  | setVersioning (enable : Bool)

deriving instance DecidableEq for VersioningOutcome

/-- Source OboBucketCommand.versioning after parsing the two store-true
flags: assert enable != disable, then set_versioning(enable). -/
def versioning_cmd (enable disable : Bool) : VersioningOutcome :=
  if enable != disable then VersioningOutcome.setVersioning enable
  else VersioningOutcome.assertionFailure

/-- Errors raised by the external storage client: socket-level
connection errors versus any other client exception. -/
inductive ClientErr where
  | socketError (msg : String)
  | otherError (msg : String)

deriving instance DecidableEq for ClientErr

/-- The message carried by a client error. -/
def clientErrMsg : ClientErr → String
  | ClientErr.socketError m => m
  | ClientErr.otherError m => m

/-- Process-level outcome of one command invocation: normal completion,
a caught-and-printed connection message followed by normal exit, or an
uncaught exception terminating the process with nonzero status. -/
inductive OpOutcome where
  | completed
  | printedConnError (msg : String)
  | uncaught (msg : String)

deriving instance DecidableEq for OpOutcome

/-- Source OboBucket.create: the create_bucket call wrapped in a
try/except that catches socket.error only and prints a message; any
other client error propagates. -/
def bucket_create (res : Except ClientErr Unit) : OpOutcome :=
  match res with
  | Except.ok _ => OpOutcome.completed
  | Except.error (ClientErr.socketError m) =>
    OpOutcome.printedConnError ("Had an issue connecting: " ++ m)
  | Except.error (ClientErr.otherError m) => OpOutcome.uncaught m

/-- Source OboBucket.remove: the delete_bucket call with no handler, so
every client error propagates uncaught. -/
def bucket_remove (res : Except ClientErr Unit) : OpOutcome :=
  match res with
  | Except.ok _ => OpOutcome.completed
  | Except.error e => OpOutcome.uncaught (clientErrMsg e)

/-- Source OboBucket.set_versioning: the configure_versioning call with
no handler, so every client error propagates uncaught. -/
def set_versioning_op (res : Except ClientErr Unit) : OpOutcome :=
  match res with
  | Except.ok _ => OpOutcome.completed
  | Except.error e => OpOutcome.uncaught (clientErrMsg e)

/-- Outcome of the bucket lifecycle get subcommand: the rule list it
prints, or an uncaught exception. -/
inductive LcGetOutcome where
  | printed (rules : List LcRule)
  | uncaught (msg : String)

deriving instance DecidableEq for LcGetOutcome

/-- Whether an outcome terminates the process with nonzero status. -/
def LcGetOutcome.exitsNonzero : LcGetOutcome → Bool
  | LcGetOutcome.printed _ => false
  | LcGetOutcome.uncaught _ => true

/-- Source OboBucket.get_lifecycle: the get_lifecycle_config call is
wrapped in a bare try/except, so any client error (connection failures
included) is replaced by an empty Lifecycle, which is then printed and
the process exits normally. -/
def get_lifecycle_cmd (fetch : Except ClientErr (List LcRule)) : LcGetOutcome :=
  match fetch with
  | Except.ok rules => LcGetOutcome.printed rules
  | Except.error _ => LcGetOutcome.printed []

/-- Concatenation with ampersands, the joining the spec describes for
query-string pairs. -/
def joinAmp : List String → String
  | [] => ""
  | [x] => x
  | x :: xs => x ++ "&" ++ joinAmp xs

/-- Source OboCommand._get_rgwx_query_args: thread the three optional
extension parameters through append_query_arg in a fixed order. -/
def get_rgwx_query_args (uid vid epoch : Option String) : Option String :=
  append_query_arg
    (append_query_arg
      (append_query_arg none "rgwx-uid" uid)
      "rgwx-version-id" vid)
    "rgwx-versioned-epoch" epoch

/-- Specification-side description of the query string, written from
the spec words for comparison with get_rgwx_query_args: one verbatim
key=value pair per supplied parameter, in the fixed order uid,
version-id, versioned-epoch. -/
def specQueryPairs (uid vid epoch : Option String) : List String :=
  (match uid with
   | none => []
   | some u => ["rgwx-uid=" ++ u]) ++
  (match vid with
   | none => []
   | some v => ["rgwx-version-id=" ++ v]) ++
  (match epoch with
   | none => []
   | some w => ["rgwx-versioned-epoch=" ++ w])

/-! Helper lemmas about dict lookup, dict assignment and get_attrs. -/

lemma dget_map_replace {α : Type} (d : List (String × α)) (a : String) (v : α) :
    dget (d.map (fun p => if p.1 = a then (a, v) else p)) a = (dget d a).map (fun _ => v) := by
  induction d with
  | nil => simp [dget]
  | cons hd tl ih =>
    obtain ⟨k, w⟩ := hd
    simp only [List.map_cons]
    by_cases h : k = a
    · subst h
      rw [show (if ((k, w) : String × α).1 = k then (k, v) else (k, w)) = (k, v) from if_pos rfl]
      simp [dget]
    · rw [show (if ((k, w) : String × α).1 = a then (a, v) else (k, w)) = (k, w) from if_neg h]
      simp [dget, h, ih]

lemma dget_map_replace_ne {α : Type} (d : List (String × α)) (a b : String) (v : α)
    (h : b ≠ a) :
    dget (d.map (fun p => if p.1 = a then (a, v) else p)) b = dget d b := by
  induction d with
  | nil => simp [dget]
  | cons hd tl ih =>
    obtain ⟨k, w⟩ := hd
    simp only [List.map_cons]
    by_cases hk : k = a
    · subst hk
      rw [show (if ((k, w) : String × α).1 = k then (k, v) else (k, w)) = (k, v) from if_pos rfl]
      simp [dget, Ne.symm h, ih]
    · rw [show (if ((k, w) : String × α).1 = a then (a, v) else (k, w)) = (k, w) from if_neg hk]
      simp [dget, ih]

lemma dget_append_single_self {α : Type} (d : List (String × α)) (a : String) (v : α)
    (h : dget d a = none) :
    dget (d ++ [(a, v)]) a = some v := by
  induction d with
  | nil => simp [dget]
  | cons hd tl ih =>
    obtain ⟨k, w⟩ := hd
    by_cases hk : k = a
    · simp [dget, hk] at h
    · simp [dget, hk] at h ⊢
      exact ih h

lemma dget_append_single_ne {α : Type} (d : List (String × α)) (a b : String) (v : α)
    (h : b ≠ a) :
    dget (d ++ [(a, v)]) b = dget d b := by
  induction d with
  | nil => simp [dget, Ne.symm h]
  | cons hd tl ih =>
    obtain ⟨k, w⟩ := hd
    by_cases hk : k = b
    · simp [dget, hk]
    · simp [dget, hk, ih]

lemma dget_dset_self {α : Type} (d : List (String × α)) (a : String) (v : α) :
    dget (dset d a v) a = some v := by
  unfold dset
  cases hs : dget d a with
  | none => simp [hs, dget_append_single_self d a v hs]
  | some w => simp [hs, dget_map_replace, hs]

lemma dget_dset_ne {α : Type} (d : List (String × α)) (a b : String) (v : α)
    (h : b ≠ a) :
    dget (dset d a v) b = dget d b := by
  unfold dset
  by_cases hs : (dget d a).isSome = true
  · simp [hs, dget_map_replace_ne d a b v h]
  · simp [hs, dget_append_single_ne d a b v h]

lemma dget_append_attr (d k : PyDict) (b a : String) :
    dget (append_attr d k b) a =
      if a = b ∧ keepAttr (dget k b) = true then dget k b else dget d a := by
  cases hb : dget k b with
  | none => simp [append_attr, hb, keepAttr]
  | some v =>
    by_cases hk : pyKeep v = true
    · by_cases hab : a = b
      · subst hab
        simp [append_attr, hb, append_attr_value, hk, keepAttr, dget_dset_self]
      · simp [append_attr, hb, append_attr_value, hk, keepAttr, hab,
          dget_dset_ne _ _ _ _ hab]
    · simp [append_attr, hb, append_attr_value, hk, keepAttr]

lemma dget_foldl_append_attr (k : PyDict) (attrs : List String) (d : PyDict) (a : String) :
    dget (attrs.foldl (fun d a => append_attr d k a) d) a =
      if a ∈ attrs ∧ keepAttr (dget k a) = true then dget k a else dget d a := by
  induction attrs generalizing d with
  | nil => simp
  | cons b rest ih =>
    simp only [List.foldl_cons]
    rw [ih, dget_append_attr]
    by_cases hk : keepAttr (dget k a) = true
    · by_cases hr : a ∈ rest
      · simp [hr, hk]
      · by_cases hab : a = b
        · subst hab
          simp [hr, hk]
        · simp [hr, hk, hab]
    · by_cases hab : a = b
      · subst hab
        simp [hk]
      · simp [hk, hab]

lemma dget_get_attrs (k : PyDict) (attrs : List String) (a : String) :
    dget (get_attrs k attrs) a =
      if a ∈ attrs ∧ keepAttr (dget k a) = true then dget k a else none := by
  unfold get_attrs
  rw [dget_foldl_append_attr]
  simp [dget]

lemma keepAttr_isSome {o : Option PyVal} (h : keepAttr o = true) : o.isSome = true := by
  cases o <;> simp [keepAttr] at h ⊢

lemma isSome_dget_get_attrs (k : PyDict) (attrs : List String) (a : String) :
    (dget (get_attrs k attrs) a).isSome = true ↔
      a ∈ attrs ∧ keepAttr (dget k a) = true := by
  rw [dget_get_attrs]
  by_cases h : a ∈ attrs ∧ keepAttr (dget k a) = true
  · simp [h, keepAttr_isSome h.2]
  · simp [h]

/-! Structural lemmas about the variant encoders. -/

lemma keyDefault_ok (versioned : Bool) (k out : PyDict)
    (h : keyDefault versioned k = Except.ok out) :
    ∃ ev sv, dget k "etag" = some ev ∧ pySliceDrop1Last ev = Except.ok sv ∧
      ((versioned = false ∧ out = dset (get_attrs k keyAttrs) "etag" sv) ∨
       (versioned = true ∧ ∃ lv, dget k "is_latest" = some lv ∧
         out = dset (dset (get_attrs k keyAttrs) "etag" sv) "is_latest" lv)) := by
  unfold keyDefault at h
  split at h
  · exact absurd h (by simp)
  · rename_i ev he
    split at h
    · exact absurd h (by simp)
    · rename_i sv hs
      split at h
      · rename_i hv
        split at h
        · exact absurd h (by simp)
        · rename_i lv hl
          simp only [Except.ok.injEq] at h
          exact ⟨ev, sv, he, hs, Or.inr ⟨hv, lv, hl, h.symm⟩⟩
      · rename_i hv
        simp only [Bool.not_eq_true] at hv
        simp only [Except.ok.injEq] at h
        exact ⟨ev, sv, he, hs, Or.inl ⟨hv, h.symm⟩⟩

lemma deleteMarkerDefault_ok (k out : PyDict)
    (h : deleteMarkerDefault k = Except.ok out) :
    ∃ lv, dget k "is_latest" = some lv ∧
      out = dset (dset (get_attrs k ["name", "version_id", "last_modified", "owner"])
        "delete_marker" (PyVal.vBool true)) "is_latest" lv := by
  unfold deleteMarkerDefault at h
  split at h
  · exact absurd h (by simp)
  · rename_i lv hl
    simp only [Except.ok.injEq] at h
    exact ⟨lv, hl, h.symm⟩

lemma etag_not_mem_keyAttrs : "etag" ∉ keyAttrs := by decide

lemma is_latest_not_mem_keyAttrs : "is_latest" ∉ keyAttrs := by decide

lemma isSome_dget_keyDefault (versioned : Bool) (k out : PyDict) (a : String)
    (h : keyDefault versioned k = Except.ok out) :
    (dget out a).isSome = true ↔
      (a ∈ keyAttrs ∧ keepAttr (dget k a) = true) ∨ a = "etag" ∨
        (versioned = true ∧ a = "is_latest") := by
  rcases keyDefault_ok versioned k out h with ⟨ev, sv, he, hs, hcase⟩
  rcases hcase with ⟨hv, hout⟩ | ⟨hv, lv, hl, hout⟩
  · subst hv
    subst hout
    by_cases hae : a = "etag"
    · subst hae
      simp [dget_dset_self]
    · rw [dget_dset_ne _ _ _ _ hae]
      rw [isSome_dget_get_attrs]
      simp [hae]
  · subst hv
    subst hout
    by_cases hal : a = "is_latest"
    · subst hal
      simp [dget_dset_self]
    · rw [dget_dset_ne _ _ _ _ hal]
      by_cases hae : a = "etag"
      · subst hae
        simp [dget_dset_self]
      · rw [dget_dset_ne _ _ _ _ hae]
        rw [isSome_dget_get_attrs]
        simp [hae, hal]

lemma isSome_dget_deleteMarkerDefault (k out : PyDict) (a : String)
    (h : deleteMarkerDefault k = Except.ok out) :
    (dget out a).isSome = true ↔
      (a ∈ (["name", "version_id", "last_modified", "owner"] : List String) ∧
        keepAttr (dget k a) = true) ∨ a = "delete_marker" ∨ a = "is_latest" := by
  rcases deleteMarkerDefault_ok k out h with ⟨lv, hl, hout⟩
  subst hout
  by_cases hal : a = "is_latest"
  · subst hal
    simp [dget_dset_self]
  · rw [dget_dset_ne _ _ _ _ hal]
    by_cases had : a = "delete_marker"
    · subst had
      simp [dget_dset_self]
    · rw [dget_dset_ne _ _ _ _ had]
      rw [isSome_dget_get_attrs]
      simp [hal, had]

lemma isSome_dget_objDefault (versioned : Bool) (tag : Variant) (k out : PyDict) (a : String)
    (h : objDefault versioned tag k = Except.ok out) :
    (dget out a).isSome = true ↔
      ((a ∈ variantAttrs tag ∧ keepAttr (dget k a) = true) ∨ a ∈ extraKeys tag versioned) := by
  cases tag with
  | key =>
    rw [isSome_dget_keyDefault versioned k out a h]
    cases versioned with
    | false => simp [extraKeys, variantAttrs]
    | true => simp [extraKeys, variantAttrs]
  | deleteMarker =>
    rw [isSome_dget_deleteMarkerDefault k out a h]
    simp [extraKeys, variantAttrs]
  | pfx =>
    simp only [objDefault] at h
    split at h
    · exact absurd h (by simp)
    · rename_i v hn
      simp only [Except.ok.injEq] at h
      subst h
      by_cases hap : a = "prefix"
      · subst hap
        simp [dget, extraKeys, variantAttrs]
      · simp [dget, Ne.symm hap, hap, extraKeys, variantAttrs]
  | unknown => simp [objDefault] at h
  | user =>
    simp only [objDefault, Except.ok.injEq] at h
    subst h
    rw [isSome_dget_get_attrs]
    simp [extraKeys]
  | bucket =>
    simp only [objDefault, Except.ok.injEq] at h
    subst h
    rw [isSome_dget_get_attrs]
    simp [extraKeys]
  | lcRule =>
    simp only [objDefault, Except.ok.injEq] at h
    subst h
    rw [isSome_dget_get_attrs]
    simp [extraKeys]
  | lcExpiration =>
    simp only [objDefault, Except.ok.injEq] at h
    subst h
    rw [isSome_dget_get_attrs]
    simp [extraKeys]
  | lcTransition =>
    simp only [objDefault, Except.ok.injEq] at h
    subst h
    rw [isSome_dget_get_attrs]
    simp [extraKeys]
  | wsRedirect =>
    simp only [objDefault, Except.ok.injEq] at h
    subst h
    rw [isSome_dget_get_attrs]
    simp [extraKeys]
  | wsCondition =>
    simp only [objDefault, Except.ok.injEq] at h
    subst h
    rw [isSome_dget_get_attrs]
    simp [extraKeys]
  | wsRedirectLocation =>
    simp only [objDefault, Except.ok.injEq] at h
    subst h
    rw [isSome_dget_get_attrs]
    simp [extraKeys]
  | wsRoutingRule =>
    simp only [objDefault, Except.ok.injEq] at h
    subst h
    rw [isSome_dget_get_attrs]
    simp [extraKeys]
  | wsConfiguration =>
    simp only [objDefault, Except.ok.injEq] at h
    subst h
    rw [isSome_dget_get_attrs]
    simp [extraKeys]

/-! Lemmas about listing serialization and assorted helpers. -/

lemma serializeListing_ok_mem (versioned : Bool) (entries : List (Variant × PyDict))
    (out : List PyDict) (h : serializeListing versioned entries = Except.ok out) :
    ∀ d ∈ out, ∃ e ∈ entries, objDefault versioned e.1 e.2 = Except.ok d := by
  induction entries generalizing out with
  | nil =>
    simp only [serializeListing, Except.ok.injEq] at h
    subst h
    simp
  | cons e rest ih =>
    obtain ⟨t, kk⟩ := e
    simp only [serializeListing] at h
    split at h
    · exact absurd h (by simp)
    · rename_i d0 ho
      split at h
      · exact absurd h (by simp)
      · rename_i ds hr
        simp only [Except.ok.injEq] at h
        subst h
        intro d hd
        rcases List.mem_cons.mp hd with hdd | hd
        · exact ⟨(t, kk), List.mem_cons_self _ _, by rw [ho, hdd]⟩
        · rcases ih ds hr d hd with ⟨e, he, hok⟩
          exact ⟨e, List.mem_cons_of_mem _ he, hok⟩

lemma serializeListing_ok_length (versioned : Bool) (entries : List (Variant × PyDict))
    (out : List PyDict) (h : serializeListing versioned entries = Except.ok out) :
    out.length = entries.length := by
  induction entries generalizing out with
  | nil =>
    simp only [serializeListing, Except.ok.injEq] at h
    subst h
    rfl
  | cons e rest ih =>
    obtain ⟨t, kk⟩ := e
    simp only [serializeListing] at h
    split at h
    · exact absurd h (by simp)
    · rename_i d0 ho
      split at h
      · exact absurd h (by simp)
      · rename_i ds hr
        simp only [Except.ok.injEq] at h
        subst h
        simp [ih ds hr]

lemma serializeListing_ok_get (versioned : Bool) (entries : List (Variant × PyDict))
    (out : List PyDict) (h : serializeListing versioned entries = Except.ok out) :
    ∀ i (hi : i < entries.length) (ho : i < out.length),
      objDefault versioned (entries.get ⟨i, hi⟩).1 (entries.get ⟨i, hi⟩).2 =
        Except.ok (out.get ⟨i, ho⟩) := by
  induction entries generalizing out with
  | nil =>
    intro i hi
    exact absurd hi (by simp)
  | cons e rest ih =>
    obtain ⟨t, kk⟩ := e
    simp only [serializeListing] at h
    split at h
    · exact absurd h (by simp)
    · rename_i d0 ho
      split at h
      · exact absurd h (by simp)
      · rename_i ds hr
        simp only [Except.ok.injEq] at h
        subst h
        intro i hi hlen
        cases i with
        | zero => simpa using ho
        | succ n =>
          exact ih ds hr n (Nat.lt_of_succ_lt_succ hi) (Nat.lt_of_succ_lt_succ hlen)

lemma string_len_pos_iff (s : String) : 0 < s.length ↔ s ≠ "" := by
  cases s with
  | mk data =>
    have h1 : (String.mk data).length = data.length := rfl
    rw [h1, List.length_pos]
    constructor
    · intro h hc
      apply h
      have h2 := congrArg String.data hc
      simpa using h2
    · intro h hc
      apply h
      rw [hc]

lemma pyKeep_vStr (s : String) : pyKeep (PyVal.vStr s) = true ↔ s ≠ "" := by
  simp [pyKeep, pyTruthy, pyStr, string_len_pos_iff]

lemma take_sub_two_eq_dropLast {α : Type} (l : List α) :
    (l.drop 1).take (l.length - 2) = (l.drop 1).dropLast := by
  rw [List.dropLast_eq_take, List.length_drop]
  congr 1

lemma dget_keyDefault_etag (versioned : Bool) (k out : PyDict) (s : String)
    (he : dget k "etag" = some (PyVal.vStr s))
    (h : keyDefault versioned k = Except.ok out) :
    dget out "etag" = some (PyVal.vStr (String.mk ((s.toList.drop 1).dropLast))) := by
  rcases keyDefault_ok versioned k out h with ⟨ev, sv, he2, hs, hcase⟩
  rw [he] at he2
  injection he2 with he2
  subst he2
  simp only [pySliceDrop1Last, Except.ok.injEq] at hs
  have hlen : s.length = s.toList.length := rfl
  rw [hlen, take_sub_two_eq_dropLast] at hs
  rcases hcase with ⟨_, hout⟩ | ⟨_, lv, _, hout⟩
  · subst hout
    rw [dget_dset_self, hs]
  · subst hout
    rw [dget_dset_ne _ _ _ _ (by decide : ("etag" : String) ≠ "is_latest"),
      dget_dset_self, hs]

lemma eq_empty_of_len_zero (a : String) (h : a.length = 0) : a = "" := by
  by_contra hne
  have hp := (string_len_pos_iff a).mpr hne
  omega

lemma append_ne_empty (a b : String) (ha : a ≠ "") : a ++ b ≠ "" := by
  intro hc
  apply ha
  apply eq_empty_of_len_zero
  have h1 := congrArg String.length hc
  rw [String.length_append] at h1
  have h0 : ("" : String).length = 0 := rfl
  rw [h0] at h1
  omega

lemma aqa_skip (s : Option String) (n : String) : append_query_arg s n none = s := by
  simp [append_query_arg]

lemma aqa_none_some (n v : String) (hv : v ≠ "") :
    append_query_arg none n (some v) = some (n ++ "=" ++ v) := by
  simp [append_query_arg, hv]

lemma aqa_some_some (t n v : String) (ht : t ≠ "") (hv : v ≠ "") :
    append_query_arg (some t) n (some v) = some (t ++ "&" ++ (n ++ "=" ++ v)) := by
  simp [append_query_arg, hv, ht]

/-! Claim theorems. -/

/-- C1, counterexample: the claimed iff (an output key is present exactly
when the attribute is present and its stringification is nonempty) fails
on the code.  An object-key value whose size attribute is the integer 0
has the attribute present with nonempty stringification "0", yet the
serializer omits the size key, because the source tests Python
truthiness (if attrv) and 0 is falsy. -/
theorem c1_counterexample_size_zero :
    objDefault false Variant.key
        [("name", PyVal.vStr "obj1"), ("size", PyVal.vInt 0), ("etag", PyVal.vStr "\"abc\"")]
      = Except.ok [("name", PyVal.vStr "obj1"), ("etag", PyVal.vStr "abc")]
    ∧ "size" ∈ variantAttrs Variant.key
    ∧ dget [("name", PyVal.vStr "obj1"), ("size", PyVal.vInt 0), ("etag", PyVal.vStr "\"abc\"")]
        "size" = some (PyVal.vInt 0)
    ∧ 0 < (pyStr (PyVal.vInt 0)).length
    ∧ dget [("name", PyVal.vStr "obj1"), ("etag", PyVal.vStr "abc")] "size" = none :=
  ⟨rfl, by decide, rfl, by decide, rfl⟩

/-- C1, amended: for every Response Model value and every successful
serialization, a key appears in the output dict exactly when either it
is a listed attribute that is present AND Python-truthy (truthiness, not
nonempty stringification, is the test — so a present 0, False, None or
empty collection is omitted), or it is one of the fixed extra keys
(etag, and is_latest in versioned mode, for keys; delete_marker and
is_latest for delete markers; prefix for common-prefix markers).  In
particular absent or falsy attributes are omitted entirely, never
emitted as null, and no other keys appear. -/
theorem c1_output_key_presence (versioned : Bool) (tag : Variant) (k out : PyDict)
    (h : objDefault versioned tag k = Except.ok out) (a : String) :
    (dget out a).isSome = true ↔
      ((a ∈ variantAttrs tag ∧ keepAttr (dget k a) = true) ∨ a ∈ extraKeys tag versioned) :=
  isSome_dget_objDefault versioned tag k out a h

/-- C1, witness: the amended theorem applied to a concrete bucket value. -/
theorem c1_output_key_presence_witness :
    (objDefault false Variant.bucket [("name", PyVal.vStr "b1")]
        = Except.ok [("name", PyVal.vStr "b1")])
    ∧ ((dget [("name", PyVal.vStr "b1")] "name").isSome = true ↔
        (("name" ∈ variantAttrs Variant.bucket ∧
            keepAttr (dget [("name", PyVal.vStr "b1")] "name") = true) ∨
          "name" ∈ extraKeys Variant.bucket false)) :=
  ⟨rfl, c1_output_key_presence false Variant.bucket [("name", PyVal.vStr "b1")]
      [("name", PyVal.vStr "b1")] rfl "name"⟩

/-- C2: whenever the etag attribute of an object-key value is a string,
every successful serialization emits under the etag key exactly that
string with its first and its last character removed. -/
theorem c2_etag_strip (versioned : Bool) (k out : PyDict) (s : String)
    (he : dget k "etag" = some (PyVal.vStr s))
    (h : objDefault versioned Variant.key k = Except.ok out) :
    dget out "etag" = some (PyVal.vStr (String.mk ((s.toList.drop 1).dropLast))) := by
  simp only [objDefault] at h
  exact dget_keyDefault_etag versioned k out s he h

/-- C2, witness: a checksum arriving as the quoted string abc123 is
emitted as abc123 under the etag key. -/
theorem c2_etag_strip_witness :
    (dget [("etag", PyVal.vStr "\"abc123\"")] "etag" = some (PyVal.vStr "\"abc123\""))
    ∧ (objDefault false Variant.key [("etag", PyVal.vStr "\"abc123\"")]
        = Except.ok [("etag", PyVal.vStr "abc123")])
    ∧ dget [("etag", PyVal.vStr "abc123")] "etag" = some (PyVal.vStr "abc123") :=
  ⟨rfl, rfl, by
    have h := c2_etag_strip false [("etag", PyVal.vStr "\"abc123\"")]
      [("etag", PyVal.vStr "abc123")] "\"abc123\"" rfl rfl
    rw [show String.mk ((("\"abc123\"" : String).toList.drop 1).dropLast) = "abc123" from rfl]
      at h
    exact h⟩

/-- C10: serializing an object-key value whose etag attribute is absent,
or present but not sliceable, raises and aborts the serialization of
that value, while absence of any of the listed attributes alone never
does (the skip-on-absence rule does not cover etag). -/
theorem c10_etag_read_unconditionally :
    (∀ (versioned : Bool) (k : PyDict),
      (dget k "etag" = none ∨ ∃ v, dget k "etag" = some v ∧ sliceable v = false) →
      ∃ m, objDefault versioned Variant.key k = Except.error m)
    ∧ (∀ (k : PyDict) (s : String), dget k "etag" = some (PyVal.vStr s) →
      ∃ d, objDefault false Variant.key k = Except.ok d) := by
  constructor
  · intro versioned k hcase
    simp only [objDefault, keyDefault]
    rcases hcase with he | ⟨v, he, hsl⟩
    · rw [he]
      exact ⟨"AttributeError: etag", rfl⟩
    · rw [he]
      cases v with
      | vStr s => simp [sliceable] at hsl
      | vList xs => simp [sliceable] at hsl
      | vNone => exact ⟨"TypeError: unsubscriptable object", rfl⟩
      | vInt n => exact ⟨"TypeError: unsubscriptable object", rfl⟩
      | vBool b => exact ⟨"TypeError: unsubscriptable object", rfl⟩
      | vDict es => exact ⟨"TypeError: unsubscriptable object", rfl⟩
      | vObj t ats => exact ⟨"TypeError: unsubscriptable object", rfl⟩
  · intro k s he
    simp only [objDefault, keyDefault]
    rw [he]
    exact ⟨_, rfl⟩

/-- C10, witness: the empty attribute map (etag absent) raises, while a
value carrying only a string etag serializes despite every listed
attribute being absent. -/
theorem c10_etag_read_unconditionally_witness :
    ((dget ([] : PyDict) "etag" = none)
      ∧ ∃ m, objDefault false Variant.key [] = Except.error m)
    ∧ ((dget [("etag", PyVal.vStr "\"ab\"")] "etag" = some (PyVal.vStr "\"ab\""))
      ∧ ∃ d, objDefault false Variant.key [("etag", PyVal.vStr "\"ab\"")] = Except.ok d) :=
  ⟨⟨rfl, c10_etag_read_unconditionally.1 false [] (Or.inl rfl)⟩,
   ⟨rfl, c10_etag_read_unconditionally.2 [("etag", PyVal.vStr "\"ab\"")] "\"ab\"" rfl⟩⟩

/-- C3: an object listing serialized in non-versioned mode (entries are
keys and common-prefix markers, as get_all_keys returns) contains no
is_latest key in any entry; in versioned mode, provided the external
library stores the is-latest flag as a boolean, every object entry (key
or delete marker) carries an is_latest key whose value is that boolean,
not a string. -/
theorem c3_is_latest_by_mode :
    (∀ (entries : List (Variant × PyDict)) (out : List PyDict),
      serializeListing false entries = Except.ok out →
      (∀ e ∈ entries, e.1 = Variant.key ∨ e.1 = Variant.pfx) →
      ∀ d ∈ out, dget d "is_latest" = none)
    ∧ (∀ (entries : List (Variant × PyDict)) (out : List PyDict),
      serializeListing true entries = Except.ok out →
      (∀ e ∈ entries, ∀ lv, dget e.2 "is_latest" = some lv → ∃ b, lv = PyVal.vBool b) →
      ∀ i (hi : i < entries.length) (ho : i < out.length),
        ((entries.get ⟨i, hi⟩).1 = Variant.key ∨
          (entries.get ⟨i, hi⟩).1 = Variant.deleteMarker) →
        ∃ b, dget (out.get ⟨i, ho⟩) "is_latest" = some (PyVal.vBool b)) := by
  constructor
  · intro entries out h htags d hd
    rcases serializeListing_ok_mem false entries out h d hd with ⟨e, he, hok⟩
    have hiff := isSome_dget_objDefault false e.1 e.2 d "is_latest" hok
    rcases hflag : dget d "is_latest" with _ | v
    · rfl
    · exfalso
      have htrue : (dget d "is_latest").isSome = true := by rw [hflag]; rfl
      rcases htags e he with ht | ht <;> rw [ht] at hiff
      · rcases hiff.mp htrue with ⟨hm, _⟩ | hm
        · exact (by decide : "is_latest" ∉ variantAttrs Variant.key) hm
        · exact (by decide : "is_latest" ∉ extraKeys Variant.key false) hm
      · rcases hiff.mp htrue with ⟨hm, _⟩ | hm
        · exact (by decide : "is_latest" ∉ variantAttrs Variant.pfx) hm
        · exact (by decide : "is_latest" ∉ extraKeys Variant.pfx false) hm
  · intro entries out h hbool i hi ho htag
    have hok := serializeListing_ok_get true entries out h i hi ho
    rcases htag with ht | ht
    · rw [ht] at hok
      simp only [objDefault] at hok
      rcases keyDefault_ok true _ _ hok with ⟨ev, sv, _, _, hcase⟩
      rcases hcase with ⟨hv, _⟩ | ⟨_, lv, hl, hout⟩
      · exact absurd hv (by simp)
      · rcases hbool (entries.get ⟨i, hi⟩) (List.get_mem _ _ _) lv hl with ⟨b, hb⟩
        subst hb
        refine ⟨b, ?_⟩
        rw [hout, dget_dset_self]
    · rw [ht] at hok
      simp only [objDefault] at hok
      rcases deleteMarkerDefault_ok _ _ hok with ⟨lv, hl, hout⟩
      rcases hbool (entries.get ⟨i, hi⟩) (List.get_mem _ _ _) lv hl with ⟨b, hb⟩
      subst hb
      refine ⟨b, ?_⟩
      rw [hout, dget_dset_self]

/-- C3, witness: both parts applied to one-entry listings; the
non-versioned key entry carries no is_latest key, the versioned key
entry carries a boolean is_latest. -/
theorem c3_is_latest_by_mode_witness :
    (dget [("name", PyVal.vStr "a"), ("etag", PyVal.vStr "e1")] "is_latest" = none)
    ∧ (∃ b, dget [("etag", PyVal.vStr "e1"), ("is_latest", PyVal.vBool true)] "is_latest"
        = some (PyVal.vBool b)) := by
  constructor
  · exact c3_is_latest_by_mode.1
      [(Variant.key, [("name", PyVal.vStr "a"), ("etag", PyVal.vStr "\"e1\"")])]
      [[("name", PyVal.vStr "a"), ("etag", PyVal.vStr "e1")]]
      rfl
      (by
        intro e he
        rw [List.mem_singleton] at he
        subst he
        exact Or.inl rfl)
      [("name", PyVal.vStr "a"), ("etag", PyVal.vStr "e1")]
      (List.mem_singleton.mpr rfl)
  · exact c3_is_latest_by_mode.2
      [(Variant.key, [("etag", PyVal.vStr "\"e1\""), ("is_latest", PyVal.vBool true)])]
      [[("etag", PyVal.vStr "e1"), ("is_latest", PyVal.vBool true)]]
      rfl
      (by
        intro e he lv hl
        rw [List.mem_singleton] at he
        subst he
        have hc : dget [("etag", PyVal.vStr "\"e1\""), ("is_latest", PyVal.vBool true)]
            "is_latest" = some (PyVal.vBool true) := rfl
        rw [hc] at hl
        injection hl with hl
        exact ⟨true, hl.symm⟩)
      0 (by decide) (by decide) (Or.inl rfl)

/-- C5: a bucket listing (entries all of the bucket variant, with
string-valued attributes as the external library delivers them)
serializes as a flat array, one output object per bucket, whose keys are
exactly those of name and creation_date that are present and nonempty;
and a common-prefix marker serializes as the singleton dict mapping
prefix to its name, not through the BucketInfo rule. -/
theorem c5_bucket_listing_and_common_prefix :
    (∀ (entries : List (Variant × PyDict)) (out : List PyDict),
      serializeListing false entries = Except.ok out →
      (∀ e ∈ entries, e.1 = Variant.bucket) →
      (∀ e ∈ entries, ∀ a v, dget e.2 a = some v → ∃ s, v = PyVal.vStr s) →
      out.length = entries.length ∧
        ∀ d ∈ out, ∃ e ∈ entries, ∀ a,
          ((dget d a).isSome = true ↔
            (a = "name" ∨ a = "creation_date") ∧
              ∃ s, dget e.2 a = some (PyVal.vStr s) ∧ s ≠ ""))
    ∧ (∀ (k : PyDict) (v : PyVal), dget k "name" = some v →
        objDefault false Variant.pfx k = Except.ok [("prefix", v)]) := by
  constructor
  · intro entries out h htag hstr
    refine ⟨serializeListing_ok_length false entries out h, ?_⟩
    intro d hd
    rcases serializeListing_ok_mem false entries out h d hd with ⟨e, he, hok⟩
    refine ⟨e, he, ?_⟩
    intro a
    rw [htag e he] at hok
    rw [isSome_dget_objDefault false Variant.bucket e.2 d a hok]
    constructor
    · rintro (⟨hm, hk⟩ | hm)
      · rcases hv : dget e.2 a with _ | v
        · rw [hv] at hk
          simp [keepAttr] at hk
        · rcases hstr e he a v hv with ⟨s, hsv⟩
          subst hsv
          rw [hv] at hk
          simp only [keepAttr] at hk
          rw [pyKeep_vStr] at hk
          refine ⟨?_, s, rfl, hk⟩
          simpa [variantAttrs] using hm
      · simp [extraKeys] at hm
    · rintro ⟨hm, s, hv, hs0⟩
      left
      refine ⟨by simpa [variantAttrs] using hm, ?_⟩
      rw [hv]
      simp only [keepAttr]
      rw [pyKeep_vStr]
      exact hs0
  · intro k v hv
    simp only [objDefault]
    rw [hv]

/-- C5, witness: both parts at concrete inputs: a one-bucket listing and
a common-prefix marker. -/
theorem c5_bucket_listing_and_common_prefix_witness :
    (([[("name", PyVal.vStr "b1")]] : List PyDict).length
        = ([(Variant.bucket, [("name", PyVal.vStr "b1")])] : List (Variant × PyDict)).length
      ∧ ∀ d ∈ ([[("name", PyVal.vStr "b1")]] : List PyDict),
        ∃ e ∈ ([(Variant.bucket, [("name", PyVal.vStr "b1")])] : List (Variant × PyDict)),
          ∀ a, ((dget d a).isSome = true ↔
            (a = "name" ∨ a = "creation_date") ∧
              ∃ s, dget e.2 a = some (PyVal.vStr s) ∧ s ≠ ""))
    ∧ objDefault false Variant.pfx [("name", PyVal.vStr "p1")]
        = Except.ok [("prefix", PyVal.vStr "p1")] := by
  constructor
  · exact c5_bucket_listing_and_common_prefix.1
      [(Variant.bucket, [("name", PyVal.vStr "b1")])]
      [[("name", PyVal.vStr "b1")]]
      rfl
      (by
        intro e he
        rw [List.mem_singleton] at he
        subst he
        rfl)
      (by
        intro e he a v hv
        rw [List.mem_singleton] at he
        subst he
        simp only [dget] at hv
        split at hv
        · injection hv with hv
          exact ⟨"b1", hv.symm⟩
        · exact absurd hv (by simp [dget]))
  · exact c5_bucket_listing_and_common_prefix.2 [("name", PyVal.vStr "p1")]
      (PyVal.vStr "p1") rfl

/-- C4, counterexample: a document containing a value of an unrecognized
variant is NOT still produced: the dispatcher falls through to the base
encoder default, which raises TypeError, and the whole document fails. -/
theorem c4_counterexample_unknown_doc :
    encodePy false 10 (PyVal.vList [PyVal.vObj Variant.unknown []])
      = Except.error "TypeError: not JSON serializable" := rfl

/-- C4, amended: values the base serializer handles natively (strings,
numbers) are encoded generically without consulting the dispatcher, but
a value whose runtime variant is unrecognized makes the dispatcher call
the base default, which raises TypeError and aborts the surrounding
document instead of producing it. -/
theorem c4_unknown_variant_fails (versioned : Bool) (k : PyDict) (fuel : Nat)
    (xs : List PyVal) (s : String) (n : Int) :
    objDefault versioned Variant.unknown k = Except.error "TypeError: not JSON serializable"
    ∧ encodePy versioned (fuel + 1) (PyVal.vStr s) = Except.ok (JVal.str s)
    ∧ encodePy versioned (fuel + 1) (PyVal.vInt n) = Except.ok (JVal.int n)
    ∧ encodePy versioned (fuel + 3) (PyVal.vList (PyVal.vObj Variant.unknown k :: xs))
        = Except.error "TypeError: not JSON serializable" :=
  ⟨rfl, rfl, rfl, rfl⟩

/-- C6: removing a lifecycle rule by id when every present rule carries
that id (so the remaining rule set would be empty) deletes the entire
lifecycle configuration instead of writing back an empty rule set. -/
theorem c6_remove_last_rule_deletes (rule_id : Option String) (rules : List LcRule)
    (h : (rules.filter (fun r => r.id != rule_id)).length = 0) :
    remove_lifecycle rule_id false (Except.ok rules) = LcAction.deleteConfig := by
  simp [remove_lifecycle, h]

/-- C6, witness: removing the only rule present deletes the whole
configuration. -/
theorem c6_remove_last_rule_deletes_witness :
    ((([⟨some "r1"⟩] : List LcRule).filter (fun r => r.id != some "r1")).length = 0)
    ∧ remove_lifecycle (some "r1") false (Except.ok ([⟨some "r1"⟩] : List LcRule))
        = LcAction.deleteConfig :=
  ⟨by decide, c6_remove_last_rule_deletes (some "r1") [⟨some "r1"⟩] (by decide)⟩

/-- C7: for every combination of the three optional extension
parameters, each either absent or a nonempty string, the constructed
query string consists of exactly the supplied verbatim key=value pairs,
joined with ampersands in the fixed order uid, version-id,
versioned-epoch, and is None when all three are absent. -/
theorem c7_rgwx_query_args (uid vid epoch : Option String)
    (hu : uid ≠ some "") (hv : vid ≠ some "") (hw : epoch ≠ some "") :
    get_rgwx_query_args uid vid epoch =
      (if specQueryPairs uid vid epoch = [] then none
       else some (joinAmp (specQueryPairs uid vid epoch))) := by
  have hfold1 : ("rgwx-uid" ++ "=" : String) = "rgwx-uid=" := rfl
  have hfold2 : ("rgwx-version-id" ++ "=" : String) = "rgwx-version-id=" := rfl
  have hfold3 : ("rgwx-versioned-epoch" ++ "=" : String) = "rgwx-versioned-epoch=" := rfl
  rcases uid with _ | u <;> rcases vid with _ | v <;> rcases epoch with _ | w
  · simp [get_rgwx_query_args, aqa_skip, specQueryPairs]
  · have hw0 : w ≠ "" := fun hh => hw (by rw [hh])
    simp [get_rgwx_query_args, aqa_skip, aqa_none_some _ _ hw0, specQueryPairs, joinAmp,
      hfold3]
  · have hv0 : v ≠ "" := fun hh => hv (by rw [hh])
    simp [get_rgwx_query_args, aqa_skip, aqa_none_some _ _ hv0, specQueryPairs, joinAmp,
      hfold2]
  · have hv0 : v ≠ "" := fun hh => hv (by rw [hh])
    have hw0 : w ≠ "" := fun hh => hw (by rw [hh])
    have hnv : ("rgwx-version-id" ++ "=" ++ v) ≠ "" :=
      append_ne_empty _ _ (append_ne_empty _ _ (by decide))
    rw [get_rgwx_query_args, aqa_skip, aqa_none_some _ _ hv0, aqa_some_some _ _ _ hnv hw0]
    simp [specQueryPairs, joinAmp, hfold2, hfold3, String.append_assoc]
  · have hu0 : u ≠ "" := fun hh => hu (by rw [hh])
    simp [get_rgwx_query_args, aqa_skip, aqa_none_some _ _ hu0, specQueryPairs, joinAmp,
      hfold1]
  · have hu0 : u ≠ "" := fun hh => hu (by rw [hh])
    have hw0 : w ≠ "" := fun hh => hw (by rw [hh])
    have hnu : ("rgwx-uid" ++ "=" ++ u) ≠ "" :=
      append_ne_empty _ _ (append_ne_empty _ _ (by decide))
    rw [get_rgwx_query_args, aqa_none_some _ _ hu0, aqa_skip, aqa_some_some _ _ _ hnu hw0]
    simp [specQueryPairs, joinAmp, hfold1, hfold3, String.append_assoc]
  · have hu0 : u ≠ "" := fun hh => hu (by rw [hh])
    have hv0 : v ≠ "" := fun hh => hv (by rw [hh])
    have hnu : ("rgwx-uid" ++ "=" ++ u) ≠ "" :=
      append_ne_empty _ _ (append_ne_empty _ _ (by decide))
    rw [get_rgwx_query_args, aqa_none_some _ _ hu0, aqa_some_some _ _ _ hnu hv0, aqa_skip]
    simp [specQueryPairs, joinAmp, hfold1, hfold2, String.append_assoc]
  · have hu0 : u ≠ "" := fun hh => hu (by rw [hh])
    have hv0 : v ≠ "" := fun hh => hv (by rw [hh])
    have hw0 : w ≠ "" := fun hh => hw (by rw [hh])
    have hnu : ("rgwx-uid" ++ "=" ++ u) ≠ "" :=
      append_ne_empty _ _ (append_ne_empty _ _ (by decide))
    have hnuv : ("rgwx-uid" ++ "=" ++ u ++ "&" ++ ("rgwx-version-id" ++ "=" ++ v)) ≠ "" :=
      append_ne_empty _ _ (append_ne_empty _ _ (append_ne_empty _ _ (by decide)))
    rw [get_rgwx_query_args, aqa_none_some _ _ hu0, aqa_some_some _ _ _ hnu hv0,
      aqa_some_some _ _ _ hnuv hw0]
    simp [specQueryPairs, joinAmp, hfold1, hfold2, hfold3, String.append_assoc]

/-- C7, witness: the theorem applied with uid and epoch supplied and
version-id absent, and the resulting concrete query string. -/
theorem c7_rgwx_query_args_witness :
    ((some "1000" : Option String) ≠ some "")
    ∧ ((none : Option String) ≠ some "")
    ∧ ((some "5" : Option String) ≠ some "")
    ∧ get_rgwx_query_args (some "1000") none (some "5")
        = some "rgwx-uid=1000&rgwx-versioned-epoch=5" :=
  ⟨by decide, by decide, by decide, by
    have h := c7_rgwx_query_args (some "1000") none (some "5")
      (by decide) (by decide) (by decide)
    rw [h]
    rfl⟩

/-- C8, counterexample: an invocation of the versioning subcommand with
neither flag (and likewise with both) is rejected by a failed assert,
not reported as a usage error with usage text. -/
theorem c8_counterexample_assert :
    versioning_cmd false false = VersioningOutcome.assertionFailure
    ∧ versioning_cmd false false ≠ VersioningOutcome.usageError
    ∧ versioning_cmd true true = VersioningOutcome.assertionFailure
    ∧ versioning_cmd true true ≠ VersioningOutcome.usageError := by
  decide

/-- C8, amended: supplying neither of the mutually exclusive flags, or
both, makes the assert enable != disable fail, terminating the process
with a nonzero status and a traceback (not usage text) before any
versioning change is issued; with exactly one flag the versioning call
proceeds with the chosen status. -/
theorem c8_versioning_mutual_exclusion (enable disable : Bool) :
    versioning_cmd enable disable =
      (if enable = disable then VersioningOutcome.assertionFailure
       else VersioningOutcome.setVersioning enable) := by
  cases enable <;> cases disable <;> rfl

/-- C9, counterexample: a connection-level client error during the
lifecycle-configuration fetch of bucket lifecycle get does not propagate
and does not terminate the process with nonzero status; the bare except
replaces it with an empty configuration, which is printed, and the
process exits normally. -/
theorem c9_counterexample_lifecycle_swallows :
    get_lifecycle_cmd (Except.error (ClientErr.socketError "Connection refused"))
      = LcGetOutcome.printed []
    ∧ (get_lifecycle_cmd
        (Except.error (ClientErr.socketError "Connection refused"))).exitsNonzero = false :=
  ⟨rfl, rfl⟩

/-- C9, amended: for bucket creation a connection-level failure is
caught and printed and execution continues to normal exit, and any other
client error propagates; for bucket removal and the versioning change,
every client error propagates uncaught (nonzero exit); but the
lifecycle-configuration fetch swallows every client error and treats it
as an absent configuration, exiting normally. -/
theorem c9_client_error_paths (m : String) (e : ClientErr) :
    bucket_create (Except.error (ClientErr.socketError m))
        = OpOutcome.printedConnError ("Had an issue connecting: " ++ m)
    ∧ bucket_create (Except.error (ClientErr.otherError m)) = OpOutcome.uncaught m
    ∧ bucket_create (Except.ok ()) = OpOutcome.completed
    ∧ bucket_remove (Except.error e) = OpOutcome.uncaught (clientErrMsg e)
    ∧ set_versioning_op (Except.error e) = OpOutcome.uncaught (clientErrMsg e)
    ∧ get_lifecycle_cmd (Except.error e) = LcGetOutcome.printed [] :=
  ⟨rfl, rfl, rfl, rfl, rfl, rfl⟩
